import Mathlib

/-!
Verification of the kafka-avro core: the magic-byte wire codec
(`src/lib/magic-byte.js`, plus the older revision kept in
`src/unnamed/part_006`), the subject-naming strategy
(`src/lib/subject-strategy.js`), the schema-registry synchronization
pipeline (`src/lib/schema-registry.js`) and the producer's serialization
fallback (`src/unnamed/part_004`).

Buffers are modelled as `List Nat` of byte values; JavaScript objects
used as dictionaries are modelled as functions into `Option`;
promise-chain failures are modelled with `Except`.
-/

namespace KafkaAvro

/-! ## Byte-buffer primitives (Node `Buffer` operations used by the codec) -/

/-- Node `buf.write...`-style bounded write: copy `data` into `buf` at
offset `pos` when it fits, leaving the buffer unchanged otherwise
(avsc's encoder only commits writes that fit). The buffer length never
changes. -/
def writeAt (buf : List Nat) (pos : Nat) (data : List Nat) : List Nat :=
  if pos + data.length ≤ buf.length then
    buf.take pos ++ data ++ buf.drop (pos + data.length)
  else
    buf

/-- The four big-endian bytes of a signed 32-bit integer, as written by
Node `buf.writeInt32BE(id, ·)` (two's complement). -/
def int32Bytes (id : Int) : List Nat :=
  let u := (id % (2 ^ 32 : Int)).toNat
  [u / 2 ^ 24 % 256, u / 2 ^ 16 % 256, u / 2 ^ 8 % 256, u % 256]

/-- Node `buf.readInt32BE(pos)`: big-endian signed 32-bit read.
Returns `none` when the read is out of bounds (Node throws a
`RangeError` there). -/
def readInt32BE (buf : List Nat) (pos : Nat) : Option Int :=
  if pos + 4 ≤ buf.length then
    let u : Nat := buf.getD pos 0 * 2 ^ 24 + buf.getD (pos + 1) 0 * 2 ^ 16 +
      buf.getD (pos + 2) 0 * 2 ^ 8 + buf.getD (pos + 3) 0
    some (if 2 ^ 31 ≤ u then (u : Int) - 2 ^ 32 else (u : Int))
  else
    none

/-! ## The avsc type interface

`avsc` is an external dependency; only the behaviour the codec relies
on is modelled. -/

/-- Modelled from the spec: the external avsc `Type` object. `ser v` is
the binary serialization of value `v`; `deser buf pos` is
`type.decode(buf, pos).value` (`none` models an undefined value). -/
structure AvroType (α : Type) where
  ser : α → List Nat
  deser : List Nat → Nat → Option α

/-- Modelled from the spec: avsc `type.encode(val, buf, pos)` — writes
the serialization of `val` into `buf` at `pos` and returns the new
position, or, when the buffer is too short, returns a negative number
whose magnitude is the number of missing bytes, leaving the buffer
unwritten. -/
def encodeAt {α : Type} (t : AvroType α) (v : α) (buf : List Nat) (pos : Nat) :
    Int × List Nat :=
  if pos + (t.ser v).length ≤ buf.length then
    (((pos + (t.ser v).length : Nat) : Int), writeAt buf pos (t.ser v))
  else
    (-(((pos + (t.ser v).length - buf.length : Nat) : Int)), buf)

theorem writeAt_length (buf : List Nat) (pos : Nat) (data : List Nat) :
    (writeAt buf pos data).length = buf.length := by
  unfold writeAt
  split
  · simp only [List.length_append, List.length_take, List.length_drop]
    omega
  · rfl

/-- When the encoder reports insufficient space, the reported magnitude
is exactly the number of missing bytes. -/
theorem encodeAt_neg {α : Type} (t : AvroType α) (v : α) (buf : List Nat)
    (pos : Nat) (h : (encodeAt t v buf pos).1 < 0) :
    buf.length < pos + (t.ser v).length ∧
      (encodeAt t v buf pos).1 =
        -(((pos + (t.ser v).length - buf.length : Nat) : Int)) := by
  unfold encodeAt at h ⊢
  by_cases hle : pos + (t.ser v).length ≤ buf.length
  · rw [if_pos hle] at h
    omega
  · rw [if_neg hle] at h ⊢
    omega

/-! ## `magicByte.toMessageBuffer` (src/lib/magic-byte.js, lines 21–35) -/

/-- `const length = optLength || 1024;` — a missing or zero length
defaults to 1024. -/
def effLength (optLength : Nat) : Nat :=
  if optLength = 0 then 1024 else optLength

/-- `magicByte.toMessageBuffer(val, type, schemaId, optLength)`:
allocate a buffer, write the magic byte at 0 and the schema id
big-endian at 1, encode the value at offset 5; on a negative encoder
position retry with length `length - pos`, else return
`buf.slice(0, pos)`. -/
def toMessageBuffer {α : Type} (t : AvroType α) (v : α) (schemaId : Int)
    (optLength : Nat) : List Nat :=
  let length := effLength optLength
  let buf := writeAt (writeAt (List.replicate length 0) 0 [0]) 1 (int32Bytes schemaId)
  let res := encodeAt t v buf 5
  if res.1 < 0 then
    toMessageBuffer t v schemaId ((length : Int) - res.1).toNat
  else
    res.2.take res.1.toNat
termination_by 5 + (t.ser v).length + 1 - effLength optLength
decreasing_by
  rename_i h
  have hbl : (writeAt (writeAt (List.replicate (effLength optLength) 0) 0 [0]) 1
      (int32Bytes schemaId)).length = effLength optLength := by
    rw [writeAt_length, writeAt_length, List.length_replicate]
  obtain ⟨h1, h2⟩ := encodeAt_neg t v _ 5 h
  rw [hbl] at h1 h2
  rw [h2]
  have h3 : ((effLength optLength : Int) -
      -(((5 + (t.ser v).length - effLength optLength : Nat) : Int))).toNat =
      5 + (t.ser v).length := by
    omega
  rw [h3]
  have h4 : effLength (5 + (t.ser v).length) = 5 + (t.ser v).length := by
    unfold effLength
    split <;> omega
  rw [h4]
  omega

/-! ## `magicByte.fromMessageBuffer`, current revision
(src/lib/magic-byte.js, lines 47–63) -/

/-- Observable outcome of the current `fromMessageBuffer`: a returned
object, a returned `null`, or a Node `RangeError` escaping from
`readInt32BE` on a truncated buffer. -/
inductive DecodeResult (α : Type) where
  | ok (value : Option α) (schemaId : Int)
  | nullResult
  | rangeError
  deriving DecidableEq, Repr

/-- `magicByte.fromMessageBuffer(encodedMessage, sr)` (current
revision): return `null` unless byte 0 is the magic byte, read the
schema id at 1, look the id up in `sr.schemaTypeById` (return `null`
when absent) and decode the payload at offset 5 with the catalog's
type. -/
def fromMessageBuffer {α : Type} (encodedMessage : List Nat)
    (schemaTypeById : Int → Option (AvroType α)) : DecodeResult α :=
  match encodedMessage.head? with
  | none => .nullResult
  | some b =>
    if b ≠ 0 then .nullResult
    else
      match readInt32BE encodedMessage 1 with
      | none => .rangeError
      | some schemaId =>
        match schemaTypeById schemaId with
        | none => .nullResult
        | some schemaType => .ok (schemaType.deser encodedMessage 5) schemaId

/-! ## `magicByte.fromMessageBuffer`, older revision
(src/unnamed/part_006, lines 49–72) -/

/-- Observable outcome of the older `fromMessageBuffer` revision: a
returned object, the `TypeError('Message not serialized with magic
byte')`, the `TypeError` raised by calling `.decode` on an undefined
writer type, or a `RangeError` from a truncated int32 read. -/
inductive DecodeResultV3 (α : Type) where
  | ok (value : Option α) (schemaId : Int)
  | typeErrorMagic
  | typeErrorUndefinedType
  | rangeError
  deriving DecidableEq, Repr

/-- `magicByte.fromMessageBuffer(writerType, encodedMessage, sr,
readerType)` (older revision, src/unnamed/part_006): throw a
`TypeError` unless byte 0 is the magic byte; resolve the writer type as
`sr.schemaTypeById[key] || writerType` (an undefined result crashes at
`.decode`); when a reader type is supplied decode through a resolver
built from the writer type (`readerDecode` models
`readerType.decode(msg, 5, readerType.createResolver(wt))`), else
decode with the writer type. -/
def fromMessageBufferV3 {α : Type} (writerType : Option (AvroType α))
    (encodedMessage : List Nat) (schemaTypeById : Int → Option (AvroType α))
    (readerDecode : Option (AvroType α → List Nat → Nat → Option α)) :
    DecodeResultV3 α :=
  if encodedMessage.getD 0 1 ≠ 0 then .typeErrorMagic
  else
    match readInt32BE encodedMessage 1 with
    | none => .rangeError
    | some schemaId =>
      match (schemaTypeById schemaId).orElse (fun _ => writerType) with
      | none => .typeErrorUndefinedType
      | some wt =>
        match readerDecode with
        | some rd => .ok (rd wt encodedMessage 5) schemaId
        | none => .ok (wt.deser encodedMessage 5) schemaId

/-- A concrete single-byte avsc type used to instantiate the codec
theorems on executable inputs. -/
def natByteType : AvroType Nat where
  ser := fun n => [n % 256]
  deser := fun buf pos => some (buf.getD pos 0)

/-! ## Subject naming strategy (src/lib/subject-strategy.js) -/

/-- `SUBJECT_STRATEGIES.TOPIC_RECORD_NAME_STRATEGY` -/
def TOPIC_RECORD_NAME_STRATEGY : String := "TopicRecordNameStrategy"

/-- `SUBJECT_STRATEGIES.TOPIC_NAME_STRATEGY` -/
def TOPIC_NAME_STRATEGY : String := "TopicNameStrategy"

/-- `SUBJECT_STRATEGIES.RECORD_NAME_STRATEGY` -/
def RECORD_NAME_STRATEGY : String := "RecordNameStrategy"

/-- `Object.entries(SUBJECT_STRATEGIES)` values, in insertion order. -/
def subjectStrategyValues : List String :=
  [TOPIC_RECORD_NAME_STRATEGY, TOPIC_NAME_STRATEGY, RECORD_NAME_STRATEGY]

/-- `SubjectNameStrategy.prepareSubjectName(topicName, data)`: switch on
`this.strategy` (`none` models the `null` set by construction without a
name); `ctorName` models `data.constructor.name`. The default case
(unconfigured or unrecognized stored value) returns the topic name. -/
def prepareSubjectName (strategy : Option String) (topicName : String)
    (ctorName : String) : String :=
  match strategy with
  | some s =>
    if s = TOPIC_RECORD_NAME_STRATEGY then topicName ++ "-" ++ ctorName
    else if s = TOPIC_NAME_STRATEGY then topicName
    else if s = RECORD_NAME_STRATEGY then ctorName
    else topicName
  | none => topicName

/-- `String.prototype.toLowerCase()`, modelled character-wise (the
strategy names are ASCII). -/
def lowerCase (s : String) : List Char := s.data.map Char.toLower

/-- `new SubjectNameStrategy(name)`: an empty (falsy) name stores
`null`; otherwise the name is compared lowercased against each strategy
value in entry order, storing the first match; no match throws an error
listing the allowed strategies (`${Object.values(SUBJECT_STRATEGIES)}`
stringifies the array comma-separated). -/
def subjectNameStrategyCtor (name : String) : Except String (Option String) :=
  if name ≠ "" then
    match subjectStrategyValues.find? (fun v => lowerCase v = lowerCase name) with
    | some v => .ok (some v)
    | none =>
      .error ("Invalid subject name strategy " ++ name ++
        ". Allowed strategies are " ++ String.intercalate "," subjectStrategyValues)
  else
    .ok none

/-! ## Producer serialization (src/unnamed/part_004, `_serializeType`) -/

/-- A payload object handed to `produce`: the `__id` and `__schemaName`
tag properties (`none` models absent/null), its remaining own
properties, and `constructor.name`. -/
structure Payload where
  idTag : Option Int
  schemaNameTag : Option String
  props : List (String × String)
  ctorName : String
  deriving DecidableEq, Repr

/-- The set of fields `JSON.stringify` serializes for a payload: the
tag properties when present, plus the remaining properties. -/
def jsonFields (d : Payload) : List (String × String) :=
  (match d.schemaNameTag with | some s => [("__schemaName", s)] | none => []) ++
    (match d.idTag with | some i => [("__id", toString i)] | none => []) ++ d.props

/-- The parts of the producer's `this.sr` and flags that
`_serializeType` reads; `σ` is the avsc type handle. -/
structure SerializerCtx (σ : Type) where
  schemaTypeById : Int → Option σ
  schemas : String → Option σ
  schemaIds : String → Option Int
  keySubjectStrategy : Option String
  valueSubjectStrategy : Option String
  shouldFailWhenSchemaIsMissing : Bool

/-- `prepareSubject(isKey, subject, topicName, data)`: dispatch to the
key or value channel's strategy. -/
def prepareSubject {σ : Type} (ctx : SerializerCtx σ) (isKey : Bool)
    (topicName : String) (ctorName : String) : String :=
  if isKey then prepareSubjectName ctx.keySubjectStrategy topicName ctorName
  else prepareSubjectName ctx.valueSubjectStrategy topicName ctorName

/-- Observable outcome of `_serializeType`. `avroBuffer` carries the
resolved schema handle and the id passed on to `serialize`
(`schemaIds[subject]`, which is absent when the schema was found via
`__id` and `subject` stayed `null`). -/
inductive SerializeOutcome (σ : Type) where
  | thrown (msg : String)
  | jsonBuffer (fields : List (String × String))
  | avroBuffer (schema : σ) (schemaId : Option Int)

/-- `Producer._serializeType(topicName, isKey, data)` for an object
payload. Returns the outcome together with the payload object as the
caller sees it afterwards (the JSON fallback `delete`s the two tag
properties in place before stringifying). -/
def serializeType {σ : Type} (ctx : SerializerCtx σ) (topicName : String)
    (isKey : Bool) (data : Payload) : SerializeOutcome σ × Payload :=
  let looked : Option σ × Option String :=
    match data.idTag with
    | some i => (ctx.schemaTypeById i, none)
    | none =>
      let subject := prepareSubject ctx isKey topicName data.ctorName
      (ctx.schemas subject, some subject)
  match looked with
  | (none, _) =>
    if ctx.shouldFailWhenSchemaIsMissing then
      (.thrown ("Unable to serialize message for topic " ++ topicName ++
        " : schema not found"), data)
    else
      let data' : Payload := { data with idTag := none, schemaNameTag := none }
      (.jsonBuffer (jsonFields data'), data')
  | (some schema, subject) =>
    (.avroBuffer schema (match subject with
      | some s => ctx.schemaIds s
      | none => none), data)

/-! ## Schema registry synchronization (src/lib/schema-registry.js) -/

/-- The body of a `GET /subjects/{subject}/versions/{version}`
response (`response.data`). -/
structure SchemaResponse where
  subject : String
  version : Nat
  id : Int
  schema : String
  deriving DecidableEq, Repr

/-- Outcome of one axios request: a response body, an error carrying an
HTTP response (`err.response` set — any status, e.g. 404 or 500), or a
network-level failure with no response. -/
inductive HttpOutcome (β : Type) where
  | ok (data : β)
  | errResponse (status : Nat)
  | errNoResponse
  deriving DecidableEq, Repr

/-- The registry REST surface as response oracles per endpoint. -/
structure RegistryNet where
  subjects : HttpOutcome (List String)
  latestVersion : String → HttpOutcome Nat
  versions : String → HttpOutcome (List Nat)
  schemaAt : String → Nat → HttpOutcome SchemaResponse

/-- The `SchemaRegistry` options consulted by `_fetchSchemas`. -/
structure SRConfig where
  selectedTopics : Option (List String)
  fetchAllVersions : Bool

/-- The mutable dictionaries of a `SchemaRegistry` instance; `σ` is the
avsc type handle. -/
structure SRState (σ : Type) where
  schemas : String → Option σ
  schemaMeta : String → Option SchemaResponse
  schemaTypeById : Int → Option σ
  schemaIds : String → Option Int
  schemaTopics : Option (List String)

/-- JS dictionary assignment `m[k] = v`. -/
def updateFn {κ β : Type} [DecidableEq κ] (m : κ → Option β) (k : κ) (v : β) :
    κ → Option β :=
  fun x => if x = k then some v else m x

/-- `_suppressAxiosError`: an error with an HTTP response is logged and
swallowed (`null`); anything else is rethrown. -/
def suppressAxiosError {β : Type} (o : HttpOutcome β) : Except Unit (Option β) :=
  match o with
  | .ok d => .ok (some d)
  | .errResponse _ => .ok none
  | .errNoResponse => .error ()

/-- `_handleAxiosError`: logs axios errors but always rethrows. -/
def handleAxiosError {β : Type} (o : HttpOutcome β) : Except Unit β :=
  match o with
  | .ok d => .ok d
  | .errResponse _ => .error ()
  | .errNoResponse => .error ()

/-- `_fetchLatestVersion(schemaTopic)`: fetch
`subjects/{t}/versions/latest`, suppressing errors that carry a
response. -/
def fetchLatestVersion (net : RegistryNet) (schemaTopic : String) :
    Except Unit (Option (Nat × String)) :=
  match suppressAxiosError (net.latestVersion schemaTopic) with
  | .ok (some v) => .ok (some (v, schemaTopic))
  | .ok none => .ok none
  | .error e => .error e

/-- `_fetchAllSchemaVersions(schemaTopic)`: fetch
`subjects/{t}/versions`, suppressing errors that carry a response;
pairs every version with the topic. -/
def fetchAllSchemaVersions (net : RegistryNet) (schemaTopic : String) :
    Except Unit (Option (List (Nat × String))) :=
  match suppressAxiosError (net.versions schemaTopic) with
  | .ok (some vs) => .ok (some (vs.map (fun v => (v, schemaTopic))))
  | .ok none => .ok none
  | .error e => .error e

/-- Result of `_fetchSchema` (the `schemaType`/`topic` fields derived
by splitting the subject on '-' are not read by any claim and are
omitted). -/
structure FetchedSchema where
  version : Nat
  responseRaw : SchemaResponse
  schemaTopicRaw : String
  deriving DecidableEq, Repr

/-- `_fetchSchema(topicMeta)`: fetch
`subjects/{t}/versions/{v}`; every transport error is rethrown via
`_handleAxiosError`. -/
def fetchSchema (net : RegistryNet) (p : Nat × String) :
    Except Unit FetchedSchema :=
  match handleAxiosError (net.schemaAt p.2 p.1) with
  | .ok resp => .ok ⟨p.1, resp, p.2⟩
  | .error e => .error e

/-- `_registerSchemaLatest(schemaObj)`: parse the schema body
(`avro.parse` modelled by the `parse` oracle; a parse failure is logged
and the state left untouched) and assign the four dictionaries in
place. -/
def registerSchemaLatest {σ : Type} (parse : String → Option σ)
    (st : SRState σ) (so : FetchedSchema) : SRState σ :=
  match parse so.responseRaw.schema with
  | none => st
  | some ty =>
    { st with
      schemaTypeById := updateFn st.schemaTypeById so.responseRaw.id ty
      schemas := updateFn st.schemas so.schemaTopicRaw ty
      schemaIds := updateFn st.schemaIds so.schemaTopicRaw so.responseRaw.id
      schemaMeta := updateFn st.schemaMeta so.schemaTopicRaw so.responseRaw }

/-- `_registerSchema(schemaObj)` (all-versions pass): like
`_registerSchemaLatest` but only `schemaTypeById` is assigned. -/
def registerSchema {σ : Type} (parse : String → Option σ)
    (st : SRState σ) (so : FetchedSchema) : SRState σ :=
  match parse so.responseRaw.schema with
  | none => st
  | some ty =>
    { st with schemaTypeById := updateFn st.schemaTypeById so.responseRaw.id ty }

/-- `_fetchTopics()`: the configured allow-list, or `GET /subjects`
through `_suppressAxiosError` (which turns a response-carrying error
into `null`). -/
def fetchTopics (cfg : SRConfig) (net : RegistryNet) :
    Except Unit (Option (List String)) :=
  match cfg.selectedTopics with
  | some ts => .ok (some ts)
  | none => suppressAxiosError net.subjects

/-- `_fetchSchemas()` — the body of both `init()` and a periodic
refresh. Stages, in bluebird order: store the topic list; fetch every
topic's latest version (one bare network failure rejects the whole
chain); drop the suppressed `null`s; fetch each schema body (any
failure rejects); register each in place; then, when
`fetchAllVersions` is set, fetch all version lists, flatten, fetch and
register those too. Returns the promise outcome together with the
dictionaries as left behind — registrations performed before a later
failure are not rolled back. A suppressed (`null`) topic listing is
stored and then crashes bluebird's `.map`, rejecting the chain. -/
def fetchSchemas {σ : Type} (cfg : SRConfig) (net : RegistryNet)
    (parse : String → Option σ) (st : SRState σ) :
    Except Unit Unit × SRState σ :=
  match fetchTopics cfg net with
  | .error _ => (.error (), st)
  | .ok none => (.error (), { st with schemaTopics := none })
  | .ok (some topics) =>
    let st1 := { st with schemaTopics := some topics }
    match topics.mapM (fetchLatestVersion net) with
    | .error _ => (.error (), st1)
    | .ok pairsOpt =>
      let pairs := pairsOpt.filterMap id
      match pairs.mapM (fetchSchema net) with
      | .error _ => (.error (), st1)
      | .ok fetched =>
        let st2 := fetched.foldl (registerSchemaLatest parse) st1
        if cfg.fetchAllVersions then
          match topics.mapM (fetchAllSchemaVersions net) with
          | .error _ => (.error (), st2)
          | .ok versionsOpt =>
            let flat := (versionsOpt.filterMap id).flatten
            match flat.mapM (fetchSchema net) with
            | .error _ => (.error (), st2)
            | .ok fetched2 => (.ok (), fetched2.foldl (registerSchema parse) st2)
        else
          (.ok (), st2)

/-! ## Concrete instances used to evaluate the registry pipeline -/

/-- An empty registry state. -/
def sr0 : SRState Nat :=
  ⟨fun _ => none, fun _ => none, fun _ => none, fun _ => none, none⟩

/-- A registry whose `b-value` latest-version lookup answers with an
HTTP 500 error response. -/
def net6 : RegistryNet where
  subjects := .ok []
  latestVersion := fun s => if s = "a-value" then .ok 1 else .errResponse 500
  versions := fun _ => .errResponse 404
  schemaAt := fun s v =>
    if s = "a-value" ∧ v = 1 then .ok ⟨"a-value", 1, 10, "schemaA"⟩
    else .errNoResponse

/-- Config selecting two subjects, latest versions only. -/
def cfg6 : SRConfig := ⟨some ["a-value", "b-value"], false⟩

/-- Parser accepting only `schemaA`. -/
def parse6 : String → Option Nat := fun str =>
  if str = "schemaA" then some 0 else none

/-- A state already holding id 7 and subject `a-value` (the previously
published catalog). -/
def sr5 : SRState Nat where
  schemas := fun s => if s = "a-value" then some 0 else none
  schemaMeta := fun _ => none
  schemaTypeById := fun i => if i = 7 then some 0 else none
  schemaIds := fun s => if s = "a-value" then some 7 else none
  schemaTopics := none

/-- A registry whose latest-version pass succeeds (id 7 now carries a
new schema) but whose historical version 1 fetch fails at the network
level. -/
def net5 : RegistryNet where
  subjects := .ok []
  latestVersion := fun _ => .ok 2
  versions := fun _ => .ok [1, 2]
  schemaAt := fun _ v =>
    if v = 2 then .ok ⟨"a-value", 2, 7, "s2"⟩ else .errNoResponse

/-- Config selecting one subject, with `fetchAllVersions` enabled. -/
def cfg5 : SRConfig := ⟨some ["a-value"], true⟩

/-- Parser accepting only the new schema body `s2`. -/
def parse5 : String → Option Nat := fun str =>
  if str = "s2" then some 1 else none

/-- Like `net5` but failing in the all-versions listing itself. -/
def net5b : RegistryNet where
  subjects := .ok []
  latestVersion := fun _ => .ok 2
  versions := fun _ => .errNoResponse
  schemaAt := fun _ _ => .ok ⟨"a-value", 2, 7, "s2"⟩

/-! ## Codec lemmas -/

theorem int32Bytes_length (id : Int) : (int32Bytes id).length = 4 := rfl

/-- The freshly written 5-byte envelope buffer: magic byte, id bytes,
zero fill. -/
theorem envelopeBuf_eq (L : Nat) (hL : 5 ≤ L) (id : Int) :
    writeAt (writeAt (List.replicate L 0) 0 [0]) 1 (int32Bytes id) =
      (0 :: int32Bytes id) ++ List.replicate (L - 5) 0 := by
  have h1 : writeAt (List.replicate L 0) 0 [0] = List.replicate L 0 := by
    unfold writeAt
    rw [if_pos (by simp; omega)]
    rw [List.take_zero, List.drop_replicate]
    simp only [List.nil_append, List.singleton_append, List.length_cons,
      List.length_nil]
    rw [← List.replicate_succ]
    congr 1
    omega
  rw [h1]
  unfold writeAt
  rw [List.length_replicate, int32Bytes_length, if_pos (by omega)]
  rw [List.take_replicate, List.drop_replicate]
  have hmin : min 1 L = 1 := by omega
  rw [hmin]
  simp only [List.replicate_succ, List.replicate_zero, List.cons_append,
    List.nil_append, List.singleton_append]

theorem envelope_length (id : Int) : (0 :: int32Bytes id).length = 5 := rfl

/-- When the payload fits the (effective) initial buffer, one encode
pass produces exactly the envelope followed by the payload. -/
theorem toMessageBuffer_of_le {α : Type} (t : AvroType α) (v : α)
    (schemaId : Int) (optLength : Nat) (h5 : 5 ≤ effLength optLength)
    (hfit : 5 + (t.ser v).length ≤ effLength optLength) :
    toMessageBuffer t v schemaId optLength =
      0 :: int32Bytes schemaId ++ t.ser v := by
  rw [toMessageBuffer]
  set L := effLength optLength with hLdef
  set env : List Nat := 0 :: int32Bytes schemaId with henvdef
  have henv : writeAt (writeAt (List.replicate L 0) 0 [0]) 1 (int32Bytes schemaId)
      = env ++ List.replicate (L - 5) 0 := envelopeBuf_eq L h5 schemaId
  have henvlen : env.length = 5 := envelope_length schemaId
  have hbuflen : (env ++ List.replicate (L - 5) 0).length = L := by
    simp only [List.length_append, List.length_replicate, henvlen]
    omega
  have htake : (env ++ List.replicate (L - 5) 0).take 5 = env := by
    rw [← henvlen, List.take_left]
  have henc : encodeAt t v (env ++ List.replicate (L - 5) 0) 5 =
      (((5 + (t.ser v).length : Nat) : Int),
        (env ++ t.ser v) ++ (env ++ List.replicate (L - 5) 0).drop (5 + (t.ser v).length)) := by
    unfold encodeAt writeAt
    rw [if_pos (by omega), if_pos (by omega), htake]
  rw [henv, henc]
  rw [if_neg (by omega)]
  have htn : (((5 + (t.ser v).length : Nat) : Int)).toNat = 5 + (t.ser v).length := by
    omega
  rw [htn]
  have hlen2 : (env ++ t.ser v).length = 5 + (t.ser v).length := by
    simp [henvlen]
  rw [← hlen2, List.take_left, henvdef]

/-- `toMessageBuffer` always returns the 5-byte envelope followed by
exactly the encoded payload, for any effective initial length of at
least 5 (smaller lengths throw inside Node's `writeInt32BE` and are
outside the model). -/
theorem toMessageBuffer_spec {α : Type} (t : AvroType α) (v : α)
    (schemaId : Int) (optLength : Nat) (h5 : 5 ≤ effLength optLength) :
    toMessageBuffer t v schemaId optLength =
      0 :: int32Bytes schemaId ++ t.ser v := by
  by_cases hfit : 5 + (t.ser v).length ≤ effLength optLength
  · exact toMessageBuffer_of_le t v schemaId optLength h5 hfit
  · rw [toMessageBuffer]
    have hbl : (writeAt (writeAt (List.replicate (effLength optLength) 0) 0 [0]) 1
        (int32Bytes schemaId)).length = effLength optLength := by
      rw [writeAt_length, writeAt_length, List.length_replicate]
    have hneg : (encodeAt t v (writeAt (writeAt (List.replicate (effLength optLength) 0) 0 [0]) 1
        (int32Bytes schemaId)) 5).1 < 0 := by
      unfold encodeAt
      rw [if_neg (by omega)]
      simp only
      omega
    rw [if_pos hneg]
    obtain ⟨h1, h2⟩ := encodeAt_neg t v _ 5 hneg
    rw [hbl] at h1 h2
    rw [h2]
    have h3 : ((effLength optLength : Int) -
        -(((5 + (t.ser v).length - effLength optLength : Nat) : Int))).toNat =
        5 + (t.ser v).length := by
      omega
    rw [h3]
    apply toMessageBuffer_of_le
    · unfold effLength
      split <;> omega
    · unfold effLength
      split <;> omega

/-- Reading back the four big-endian id bytes restores any id in
signed 32-bit range. -/
theorem readInt32BE_int32Bytes (id : Int) (hlo : -(2 ^ 31) ≤ id)
    (hhi : id < 2 ^ 31) (tail : List Nat) :
    readInt32BE (0 :: int32Bytes id ++ tail) 1 = some id := by
  have hb : int32Bytes id =
      [(id % 2 ^ 32).toNat / 2 ^ 24 % 256, (id % 2 ^ 32).toNat / 2 ^ 16 % 256,
        (id % 2 ^ 32).toNat / 2 ^ 8 % 256, (id % 2 ^ 32).toNat % 256] := rfl
  rw [hb]
  unfold readInt32BE
  rw [if_pos (by simp)]
  simp only [List.cons_append, List.getD_cons_succ, List.getD_cons_zero]
  obtain ⟨w, hw⟩ : ∃ w : Nat, w = (id % 2 ^ 32).toNat := ⟨_, rfl⟩
  rw [← hw]
  have hdig : w / 2 ^ 24 % 256 * 2 ^ 24 + w / 2 ^ 16 % 256 * 2 ^ 16 +
      w / 2 ^ 8 % 256 * 2 ^ 8 + w % 256 = w := by
    omega
  simp only [hdig, Option.some.injEq]
  split <;> omega

/-- C1: for every value `v` encodable by type `T` (the avsc decode
contract `hdec`), and every schema id `N` in signed 32-bit range,
decoding `toMessageBuffer(v, T, N)` with `fromMessageBuffer` against a
catalog that maps `N` to `T` returns the object
`{value: v, schemaId: N}`. -/
theorem encode_decode_roundTrip {α : Type} (t : AvroType α) (v : α) (N : Int)
    (optLength : Nat) (catalog : Int → Option (AvroType α))
    (hN1 : -(2 ^ 31) ≤ N) (hN2 : N < 2 ^ 31)
    (hL : 5 ≤ effLength optLength)
    (hcat : catalog N = some t)
    (hdec : ∀ pre : List Nat, pre.length = 5 → t.deser (pre ++ t.ser v) 5 = some v) :
    fromMessageBuffer (toMessageBuffer t v N optLength) catalog = .ok (some v) N := by
  rw [toMessageBuffer_spec t v N optLength hL]
  have h := hdec (0 :: int32Bytes N) (envelope_length N)
  unfold fromMessageBuffer
  simp only [List.head?_cons, readInt32BE_int32Bytes N hN1 hN2 (t.ser v), hcat, h]
  simp

/-- C1 witness. -/
theorem encode_decode_roundTrip_witness :
    fromMessageBuffer (toMessageBuffer natByteType 7 3 0)
      (fun i => if i = 3 then some natByteType else none) = .ok (some 7) 3 := by
  apply encode_decode_roundTrip
  · decide
  · decide
  · decide
  · simp
  · intro pre hpre
    simp only [natByteType]
    rw [List.getD_append_right _ _ _ _ (by omega)]
    simp [hpre]

/-- C2: for an initial length of at least 5, when the encoder reports
insufficient space with a negative position `p`, the retry buffer is
exactly `|p|` bytes larger (hence enlarged by at least `|p|`) and the
retried encode succeeds; the final result is exactly the 5-byte
envelope followed by the encoded payload, with no padding, even when
the serialized size exceeds the initial length. -/
theorem toMessageBuffer_growth {α : Type} (t : AvroType α) (v : α)
    (schemaId : Int) (optLength : Nat) (h5 : 5 ≤ optLength) :
    toMessageBuffer t v schemaId optLength = 0 :: int32Bytes schemaId ++ t.ser v ∧
    (toMessageBuffer t v schemaId optLength).length = 5 + (t.ser v).length ∧
    (∀ p : Int,
      (encodeAt t v (writeAt (writeAt (List.replicate optLength 0) 0 [0]) 1
        (int32Bytes schemaId)) 5).1 = p → p < 0 →
      ((optLength : Int) - p).toNat = optLength + p.natAbs ∧
      (encodeAt t v (writeAt (writeAt (List.replicate (optLength + p.natAbs) 0) 0 [0]) 1
        (int32Bytes schemaId)) 5).1 = ((5 + (t.ser v).length : Nat) : Int)) := by
  have heff : effLength optLength = optLength := by
    unfold effLength
    split <;> omega
  have hspec := toMessageBuffer_spec t v schemaId optLength (by omega)
  refine ⟨hspec, ?_, ?_⟩
  · rw [hspec]
    simp only [List.length_cons, List.length_append, int32Bytes_length]
  · intro p hp hneg
    have hbl : (writeAt (writeAt (List.replicate optLength 0) 0 [0]) 1
        (int32Bytes schemaId)).length = optLength := by
      rw [writeAt_length, writeAt_length, List.length_replicate]
    obtain ⟨h1, h2⟩ := encodeAt_neg t v _ 5 (by rw [hp]; exact hneg)
    rw [hbl] at h1 h2
    rw [hp] at h2
    have habs : p.natAbs = 5 + (t.ser v).length - optLength := by omega
    constructor
    · omega
    · have hbl2 : (writeAt (writeAt (List.replicate (optLength + p.natAbs) 0) 0 [0]) 1
          (int32Bytes schemaId)).length = optLength + p.natAbs := by
        rw [writeAt_length, writeAt_length, List.length_replicate]
      unfold encodeAt
      rw [if_pos (by omega)]

/-- C2 witness. -/
theorem toMessageBuffer_growth_witness :
    toMessageBuffer natByteType 7 3 5 = [0, 0, 0, 0, 3, 7] ∧
    (((5 : Nat) : Int) - (-1)).toNat = 5 + (-1 : Int).natAbs := by
  have h := toMessageBuffer_growth natByteType 7 3 5 (by decide)
  have hp := h.2.2 (-1) (by decide) (by decide)
  constructor
  · rw [h.1]
    rfl
  · exact hp.1

/-- C10: whenever the first encode pass reports a negative position
`p`, the retry allocates a buffer of length `length - p`, strictly
larger than the previous one, on which the encoder succeeds
(non-negative position), so the recursion terminates with a successful
encoding. -/
theorem toMessageBuffer_retry_terminates {α : Type} (t : AvroType α) (v : α)
    (schemaId : Int) (optLength : Nat) (h5 : 5 ≤ optLength) :
    ∀ p : Int,
      (encodeAt t v (writeAt (writeAt (List.replicate optLength 0) 0 [0]) 1
        (int32Bytes schemaId)) 5).1 = p → p < 0 →
      optLength < ((optLength : Int) - p).toNat ∧
      0 ≤ (encodeAt t v (writeAt (writeAt
        (List.replicate (((optLength : Int) - p).toNat) 0) 0 [0]) 1
        (int32Bytes schemaId)) 5).1 ∧
      toMessageBuffer t v schemaId (((optLength : Int) - p).toNat) =
        0 :: int32Bytes schemaId ++ t.ser v := by
  intro p hp hneg
  have hbl : (writeAt (writeAt (List.replicate optLength 0) 0 [0]) 1
      (int32Bytes schemaId)).length = optLength := by
    rw [writeAt_length, writeAt_length, List.length_replicate]
  obtain ⟨h1, h2⟩ := encodeAt_neg t v _ 5 (by rw [hp]; exact hneg)
  rw [hbl] at h1 h2
  rw [hp] at h2
  have hretry : ((optLength : Int) - p).toNat = 5 + (t.ser v).length := by omega
  refine ⟨by omega, ?_, ?_⟩
  · have hbl2 : (writeAt (writeAt (List.replicate (((optLength : Int) - p).toNat) 0) 0 [0]) 1
        (int32Bytes schemaId)).length = ((optLength : Int) - p).toNat := by
      rw [writeAt_length, writeAt_length, List.length_replicate]
    unfold encodeAt
    rw [if_pos (by omega)]
    show (0 : Int) ≤ ((5 + (t.ser v).length : Nat) : Int)
    omega
  · apply toMessageBuffer_spec
    rw [hretry]
    unfold effLength
    split <;> omega

/-- C10 witness. -/
theorem toMessageBuffer_retry_terminates_witness :
    (5 : Nat) < (((5 : Nat) : Int) - (-1)).toNat ∧
    toMessageBuffer natByteType 7 3 ((((5 : Nat) : Int) - (-1)).toNat) =
      [0, 0, 0, 0, 3, 7] := by
  have h := toMessageBuffer_retry_terminates natByteType 7 3 5 (by decide)
    (-1) (by decide) (by decide)
  refine ⟨h.1, ?_⟩
  rw [h.2.2]
  rfl

/-- C3 counterexample: the current `fromMessageBuffer` applied to a
buffer whose first byte is not `0x00` returns `null` — nothing is
thrown to the caller. -/
theorem fromMessageBuffer_nonMagic_returnsNull :
    fromMessageBuffer (α := Nat) [1, 0, 0, 0, 0, 0] (fun _ => none) =
      .nullResult := rfl

/-- C3 amended: for a buffer whose first byte is not the magic byte
(or an empty buffer) `fromMessageBuffer` returns `null` rather than
throwing; for a buffer that passes the magic check but is shorter than
the 5-byte envelope the int32 read raises a `RangeError`; in none of
these cases is a decoded value returned. -/
theorem fromMessageBuffer_malformed {α : Type} (buf : List Nat)
    (catalog : Int → Option (AvroType α)) :
    (∀ b, buf.head? = some b → b ≠ 0 →
      fromMessageBuffer buf catalog = .nullResult) ∧
    (buf = [] → fromMessageBuffer buf catalog = .nullResult) ∧
    (buf.head? = some 0 → buf.length < 5 →
      fromMessageBuffer buf catalog = .rangeError) ∧
    (∀ val N, fromMessageBuffer buf catalog = .ok val N →
      buf.head? = some 0 ∧ 5 ≤ buf.length) := by
  cases buf with
  | nil =>
    refine ⟨?_, ?_, ?_, ?_⟩
    · intro b hb
      simp at hb
    · intro _
      rfl
    · intro hb
      simp at hb
    · intro val N h
      simp [fromMessageBuffer] at h
  | cons b rest =>
    by_cases hb : b = 0
    · subst hb
      refine ⟨?_, ?_, ?_, ?_⟩
      · intro c hc hne
        simp only [List.head?_cons, Option.some.injEq] at hc
        omega
      · intro h
        simp at h
      · intro _ hlen
        unfold fromMessageBuffer
        simp only [List.head?_cons]
        rw [if_neg (by simp)]
        unfold readInt32BE
        rw [if_neg (by simp only [List.length_cons] at hlen ⊢; omega)]
      · intro val N h
        refine ⟨by simp, ?_⟩
        by_contra hlen
        unfold fromMessageBuffer at h
        simp only [List.head?_cons] at h
        rw [if_neg (by simp)] at h
        unfold readInt32BE at h
        rw [if_neg (by omega)] at h
        simp at h
    · refine ⟨?_, ?_, ?_, ?_⟩
      · intro c hc hne
        unfold fromMessageBuffer
        simp only [List.head?_cons]
        rw [if_pos (by simpa using hb)]
      · intro h
        simp at h
      · intro hc
        simp only [List.head?_cons, Option.some.injEq] at hc
        exact absurd hc hb
      · intro val N h
        unfold fromMessageBuffer at h
        simp only [List.head?_cons] at h
        rw [if_pos (by simpa using hb)] at h
        simp at h

/-- C3 witness. -/
theorem fromMessageBuffer_malformed_witness :
    fromMessageBuffer (α := Nat) [7, 1, 2] (fun _ => none) = .nullResult ∧
    fromMessageBuffer (α := Nat) [0, 1] (fun _ => none) = .rangeError :=
  ⟨(fromMessageBuffer_malformed [7, 1, 2] (fun _ => none)).1 7 rfl (by decide),
    (fromMessageBuffer_malformed [0, 1] (fun _ => none)).2.2.1 rfl (by decide)⟩

/-- C4: in the older revision's `fromMessageBuffer`, for a well-formed
envelope: when the embedded id is in the catalog the catalog's type
decodes the payload (with or without a fallback writer type supplied);
when the id is absent and a fallback writer type is supplied, the
fallback decodes; when the id is absent and no fallback is supplied,
the call fails with the `TypeError` raised by dereferencing the
undefined writer type (the `UnknownSchemaId` failure). -/
theorem fromMessageBufferV3_writerResolution {α : Type}
    (catalog : Int → Option (AvroType α)) (N : Int) (payload : List Nat)
    (hN1 : -(2 ^ 31) ≤ N) (hN2 : N < 2 ^ 31) :
    (∀ t w, catalog N = some t →
      fromMessageBufferV3 (some w) (0 :: int32Bytes N ++ payload) catalog none =
        .ok (t.deser (0 :: int32Bytes N ++ payload) 5) N) ∧
    (∀ t, catalog N = some t →
      fromMessageBufferV3 none (0 :: int32Bytes N ++ payload) catalog none =
        .ok (t.deser (0 :: int32Bytes N ++ payload) 5) N) ∧
    (∀ w, catalog N = none →
      fromMessageBufferV3 (some w) (0 :: int32Bytes N ++ payload) catalog none =
        .ok (w.deser (0 :: int32Bytes N ++ payload) 5) N) ∧
    (catalog N = none →
      fromMessageBufferV3 none (0 :: int32Bytes N ++ payload) catalog none =
        .typeErrorUndefinedType) := by
  have hread : readInt32BE (0 :: int32Bytes N ++ payload) 1 = some N :=
    readInt32BE_int32Bytes N hN1 hN2 payload
  refine ⟨?_, ?_, ?_, ?_⟩
  · intro t w hcat
    unfold fromMessageBufferV3
    rw [if_neg (by simp), hread]
    simp [hcat, Option.orElse]
  · intro t hcat
    unfold fromMessageBufferV3
    rw [if_neg (by simp), hread]
    simp [hcat, Option.orElse]
  · intro w hcat
    unfold fromMessageBufferV3
    rw [if_neg (by simp), hread]
    simp [hcat, Option.orElse]
  · intro hcat
    unfold fromMessageBufferV3
    rw [if_neg (by simp), hread]
    simp [hcat, Option.orElse]

/-- C4 witness. -/
theorem fromMessageBufferV3_writerResolution_witness :
    fromMessageBufferV3 none (0 :: int32Bytes 5 ++ [9])
      (fun i => if i = 5 then some natByteType else none) none =
      .ok (some 9) 5 ∧
    fromMessageBufferV3 (some natByteType) (0 :: int32Bytes 11 ++ [9])
      (fun _ => none) none = .ok (some 9) 11 ∧
    fromMessageBufferV3 (α := Nat) none (0 :: int32Bytes 11 ++ [9])
      (fun _ => none) none = .typeErrorUndefinedType := by
  refine ⟨?_, ?_, ?_⟩
  · have h := (fromMessageBufferV3_writerResolution
      (fun i => if i = 5 then some natByteType else none) 5 [9]
      (by decide) (by decide)).2.1 natByteType (by simp)
    rw [h]
    simp [natByteType]
    rfl
  · have h := (fromMessageBufferV3_writerResolution (α := Nat)
      (fun _ => none) 11 [9] (by decide) (by decide)).2.2.1 natByteType rfl
    rw [h]
    simp [natByteType]
    rfl
  · exact (fromMessageBufferV3_writerResolution (α := Nat)
      (fun _ => none) 11 [9] (by decide) (by decide)).2.2.2 rfl

set_option maxRecDepth 4000 in
/-- C7: with no configured strategy (construction from an empty name)
or with name `TopicNameStrategy`, `prepareSubjectName` returns the
topic regardless of the payload's record name; with
`TopicRecordNameStrategy` it returns `topic ++ "-" ++ recordName`. -/
theorem prepareSubjectName_strategies (topic ctorName : String) :
    prepareSubjectName none topic ctorName = topic ∧
    subjectNameStrategyCtor "" = .ok none ∧
    subjectNameStrategyCtor "TopicNameStrategy" = .ok (some TOPIC_NAME_STRATEGY) ∧
    prepareSubjectName (some TOPIC_NAME_STRATEGY) topic ctorName = topic ∧
    subjectNameStrategyCtor "TopicRecordNameStrategy" =
      .ok (some TOPIC_RECORD_NAME_STRATEGY) ∧
    prepareSubjectName (some TOPIC_RECORD_NAME_STRATEGY) topic ctorName =
      topic ++ "-" ++ ctorName := by
  refine ⟨rfl, rfl, by rfl, ?_, by rfl, ?_⟩
  · simp [prepareSubjectName, TOPIC_NAME_STRATEGY, TOPIC_RECORD_NAME_STRATEGY,
      RECORD_NAME_STRATEGY]
  · simp [prepareSubjectName, TOPIC_NAME_STRATEGY, TOPIC_RECORD_NAME_STRATEGY,
      RECORD_NAME_STRATEGY]

set_option maxRecDepth 4000 in
/-- C8: construction matches the configured name case-insensitively
against the three canonical strategy names (in entry order); an
unrecognized non-empty name fails with an error whose text lists all
three valid names; an empty name stores `null`, which
`prepareSubjectName` treats as the topic-name default. -/
theorem subjectStrategyCtor_spec :
    (∀ name : String, name ≠ "" →
      (∀ v ∈ subjectStrategyValues, lowerCase v ≠ lowerCase name) →
      subjectNameStrategyCtor name =
        .error ("Invalid subject name strategy " ++ name ++
          ". Allowed strategies are TopicRecordNameStrategy,TopicNameStrategy,RecordNameStrategy")) ∧
    (∀ name v : String, v ∈ subjectStrategyValues → name ≠ "" →
      lowerCase name = lowerCase v → subjectNameStrategyCtor name = .ok (some v)) ∧
    subjectNameStrategyCtor "" = .ok none ∧
    (∀ topic ctorName, prepareSubjectName none topic ctorName = topic) ∧
    "TopicRecordNameStrategy".toList <:+:
      ("Invalid subject name strategy bogus. Allowed strategies are TopicRecordNameStrategy,TopicNameStrategy,RecordNameStrategy").toList ∧
    "TopicNameStrategy".toList <:+:
      ("Invalid subject name strategy bogus. Allowed strategies are TopicRecordNameStrategy,TopicNameStrategy,RecordNameStrategy").toList ∧
    "RecordNameStrategy".toList <:+:
      ("Invalid subject name strategy bogus. Allowed strategies are TopicRecordNameStrategy,TopicNameStrategy,RecordNameStrategy").toList := by
  refine ⟨?_, ?_, rfl, fun _ _ => rfl, by decide, by decide, by decide⟩
  · intro name hne hnomatch
    unfold subjectNameStrategyCtor
    rw [if_pos hne]
    have hfind : subjectStrategyValues.find?
        (fun v => lowerCase v = lowerCase name) = none := by
      rw [List.find?_eq_none]
      intro x hx
      simpa using hnomatch x hx
    rw [hfind]
    have hint : String.intercalate "," subjectStrategyValues =
        "TopicRecordNameStrategy,TopicNameStrategy,RecordNameStrategy" := rfl
    rw [hint, String.append_assoc]
    rfl
  · intro name v hv hne hlow
    unfold subjectNameStrategyCtor
    rw [if_pos hne]
    simp only [subjectStrategyValues, List.mem_cons, List.not_mem_nil,
      or_false] at hv
    rcases hv with rfl | rfl | rfl
    · simp only [hlow]
      rfl
    · simp only [hlow]
      rfl
    · simp only [hlow]
      rfl

set_option maxRecDepth 4000 in
/-- C8 witness. -/
theorem subjectStrategyCtor_spec_witness :
    subjectNameStrategyCtor "bogus" =
      .error ("Invalid subject name strategy bogus. Allowed strategies are TopicRecordNameStrategy,TopicNameStrategy,RecordNameStrategy") ∧
    subjectNameStrategyCtor "topicNAMEstrategy" = .ok (some "TopicNameStrategy") := by
  constructor
  · have h := subjectStrategyCtor_spec.1 "bogus" (by decide) (by decide)
    rw [h]
    rfl
  · exact subjectStrategyCtor_spec.2.1 "topicNAMEstrategy" "TopicNameStrategy"
      (by decide) (by decide) (by decide)

/-- C9: in permissive mode, when no schema resolves and the JSON
fallback is taken, `_serializeType` deletes `__schemaName` and `__id`
from the caller's payload object in place: afterwards the object no
longer has the two tag properties, its other properties are unchanged,
and exactly those other properties appear in the serialized JSON. -/
theorem serializeType_jsonFallback {σ : Type} (ctx : SerializerCtx σ)
    (topic : String) (isKey : Bool) (data : Payload)
    (hperm : ctx.shouldFailWhenSchemaIsMissing = false)
    (hmiss : (match data.idTag with
      | some i => ctx.schemaTypeById i
      | none => ctx.schemas (prepareSubject ctx isKey topic data.ctorName)) = none) :
    (serializeType ctx topic isKey data).2.idTag = none ∧
    (serializeType ctx topic isKey data).2.schemaNameTag = none ∧
    (serializeType ctx topic isKey data).2.props = data.props ∧
    (serializeType ctx topic isKey data).2.ctorName = data.ctorName ∧
    (serializeType ctx topic isKey data).1 = .jsonBuffer data.props ∧
    jsonFields (serializeType ctx topic isKey data).2 = data.props := by
  have hjson : jsonFields { data with idTag := none, schemaNameTag := none } =
      data.props := by
    unfold jsonFields
    simp
  cases hid : data.idTag with
  | some i =>
    simp only [hid] at hmiss
    unfold serializeType
    simp only [hid, hmiss, hperm]
    simp [hjson]
  | none =>
    simp only [hid] at hmiss
    unfold serializeType
    simp only [hid, hmiss, hperm]
    simp [hjson]

/-- C9 witness. -/
theorem serializeType_jsonFallback_witness :
    (serializeType (σ := Unit)
      ⟨fun _ => none, fun _ => none, fun _ => none, none, none, false⟩
      "orders" false ⟨some 4, some "Student", [("a", "1")], "Student"⟩).1 =
      .jsonBuffer [("a", "1")] ∧
    (serializeType (σ := Unit)
      ⟨fun _ => none, fun _ => none, fun _ => none, none, none, false⟩
      "orders" false ⟨some 4, some "Student", [("a", "1")], "Student"⟩).2 =
      ⟨none, none, [("a", "1")], "Student"⟩ := by
  have h := serializeType_jsonFallback (σ := Unit)
    ⟨fun _ => none, fun _ => none, fun _ => none, none, none, false⟩
    "orders" false ⟨some 4, some "Student", [("a", "1")], "Student"⟩ rfl rfl
  obtain ⟨h1, h2, h3, h4, h5, h6⟩ := h
  refine ⟨h5, ?_⟩
  cases hst : (serializeType (σ := Unit)
      ⟨fun _ => none, fun _ => none, fun _ => none, none, none, false⟩
      "orders" false ⟨some 4, some "Student", [("a", "1")], "Student"⟩).2 with
  | mk a b c d =>
    rw [hst] at h1 h2 h3 h4
    simp at h1 h2 h3 h4
    simp [h1, h2, h3, h4]

/-! ## Registry pipeline lemmas -/

theorem mapM_error_of_mem {β γ : Type} (f : β → Except Unit γ) (l : List β)
    (x : β) (hx : x ∈ l) (hf : f x = .error ()) : l.mapM f = .error () := by
  induction l with
  | nil => cases hx
  | cons a l ih =>
    rw [List.mapM_cons]
    rcases List.mem_cons.mp hx with rfl | hx'
    · rw [hf]
      rfl
    · cases hfa : f a with
      | error e =>
        cases e
        rfl
      | ok b =>
        have := ih hx'
        simp only [this]
        rfl

theorem mapM_ok_of_forall {β γ : Type} (f : β → Except Unit γ) (g : β → γ)
    (l : List β) (h : ∀ x ∈ l, f x = .ok (g x)) :
    l.mapM f = .ok (l.map g) := by
  induction l with
  | nil => rfl
  | cons a l ih =>
    rw [List.mapM_cons, h a (by simp)]
    have := ih (fun x hx => h x (by simp [hx]))
    simp only [this]
    rfl

/-- Registration keyed on other subjects leaves the three
subject-keyed dictionaries unchanged at `s`. -/
theorem foldl_registerLatest_frame {σ : Type} (parse : String → Option σ)
    (items : List FetchedSchema) (st : SRState σ) (s : String)
    (h : ∀ it ∈ items, it.schemaTopicRaw ≠ s) :
    (items.foldl (registerSchemaLatest parse) st).schemas s = st.schemas s ∧
    (items.foldl (registerSchemaLatest parse) st).schemaIds s = st.schemaIds s ∧
    (items.foldl (registerSchemaLatest parse) st).schemaMeta s = st.schemaMeta s := by
  induction items generalizing st with
  | nil => exact ⟨rfl, rfl, rfl⟩
  | cons a l ih =>
    have hkey : a.schemaTopicRaw ≠ s := h a (by simp)
    have hstep : (registerSchemaLatest parse st a).schemas s = st.schemas s ∧
        (registerSchemaLatest parse st a).schemaIds s = st.schemaIds s ∧
        (registerSchemaLatest parse st a).schemaMeta s = st.schemaMeta s := by
      unfold registerSchemaLatest
      cases parse a.responseRaw.schema with
      | none => exact ⟨rfl, rfl, rfl⟩
      | some ty =>
        have hne : ¬s = a.schemaTopicRaw := fun hh => hkey hh.symm
        refine ⟨?_, ?_, ?_⟩ <;> simp [updateFn, hne]
    rw [List.foldl_cons]
    obtain ⟨i1, i2, i3⟩ := ih (registerSchemaLatest parse st a)
      (fun it hit => h it (by simp [hit]))
    exact ⟨i1.trans hstep.1, i2.trans hstep.2.1, i3.trans hstep.2.2⟩

/-- When an item's key occurs once among the items and its schema
parses, the fold registers exactly its type, id and metadata under that
key. -/
theorem foldl_registerLatest_set {σ : Type} (parse : String → Option σ)
    (items : List FetchedSchema) (st : SRState σ) (it : FetchedSchema) (ty : σ)
    (hmem : it ∈ items)
    (hkeys : items.Pairwise (fun a b => a.schemaTopicRaw ≠ b.schemaTopicRaw))
    (hty : parse it.responseRaw.schema = some ty) :
    (items.foldl (registerSchemaLatest parse) st).schemas it.schemaTopicRaw = some ty ∧
    (items.foldl (registerSchemaLatest parse) st).schemaIds it.schemaTopicRaw =
      some it.responseRaw.id ∧
    (items.foldl (registerSchemaLatest parse) st).schemaMeta it.schemaTopicRaw =
      some it.responseRaw := by
  induction items generalizing st with
  | nil => cases hmem
  | cons a l ih =>
    rw [List.foldl_cons]
    obtain ⟨hhead, htail⟩ := List.pairwise_cons.mp hkeys
    rcases List.mem_cons.mp hmem with rfl | hmem'
    · have hstep : (registerSchemaLatest parse st it).schemas it.schemaTopicRaw = some ty ∧
          (registerSchemaLatest parse st it).schemaIds it.schemaTopicRaw =
            some it.responseRaw.id ∧
          (registerSchemaLatest parse st it).schemaMeta it.schemaTopicRaw =
            some it.responseRaw := by
        unfold registerSchemaLatest
        rw [hty]
        refine ⟨?_, ?_, ?_⟩ <;> simp [updateFn]
      obtain ⟨f1, f2, f3⟩ := foldl_registerLatest_frame parse l
        (registerSchemaLatest parse st it) it.schemaTopicRaw
        (fun b hb => (hhead b hb).symm)
      exact ⟨f1.trans hstep.1, f2.trans hstep.2.1, f3.trans hstep.2.2⟩
    · exact ih (registerSchemaLatest parse st a) hmem' htail

/-- `filterMap` over pairwise-distinct inputs yields pairwise-distinct
keys whenever the produced element's key is its source. -/
theorem pairwise_ne_filterMap {γ : Type} (key : γ → String)
    (H : String → Option γ) (hk : ∀ s y, H s = some y → key y = s)
    (l : List String) (h : l.Pairwise (· ≠ ·)) :
    (l.filterMap H).Pairwise (fun a b => key a ≠ key b) := by
  induction l with
  | nil => simp
  | cons a l ih =>
    obtain ⟨hhead, htail⟩ := List.pairwise_cons.mp h
    rw [List.filterMap_cons]
    cases hHa : H a with
    | none => exact ih htail
    | some y =>
      rw [List.pairwise_cons]
      refine ⟨?_, ih htail⟩
      intro b hb
      obtain ⟨s', hs', hHs'⟩ := List.mem_filterMap.mp hb
      rw [hk a y hHa, hk s' b hHs']
      exact hhead s' hs'

/-- When every selected subject's latest-version lookup answers (with
data or with an HTTP error response) and every fetched (subject,
version) schema request succeeds, the pipeline runs its registration
stage on exactly the responding subjects and proceeds to the
all-versions stage. -/
theorem fetchSchemas_eq_afterLatest {σ : Type} (cfg : SRConfig)
    (net : RegistryNet) (parse : String → Option σ) (st : SRState σ)
    (topics : List String) (rsp : String → SchemaResponse)
    (hsel : cfg.selectedTopics = some topics)
    (hgood : ∀ s ∈ topics, net.latestVersion s ≠ .errNoResponse)
    (hfetch : ∀ s ∈ topics, ∀ v, net.latestVersion s = .ok v →
      net.schemaAt s v = .ok (rsp s)) :
    fetchSchemas cfg net parse st =
      (let fetched := (topics.filterMap (fun s => match net.latestVersion s with
          | HttpOutcome.ok v => some (v, s)
          | _ => none)).map (fun p => (⟨p.1, rsp p.2, p.2⟩ : FetchedSchema))
       let st2 := fetched.foldl (registerSchemaLatest parse)
         { st with schemaTopics := some topics }
       if cfg.fetchAllVersions then
         match topics.mapM (fetchAllSchemaVersions net) with
         | .error _ => (.error (), st2)
         | .ok versionsOpt =>
           match ((versionsOpt.filterMap id).flatten).mapM (fetchSchema net) with
           | .error _ => (.error (), st2)
           | .ok fetched2 => (.ok (), fetched2.foldl (registerSchema parse) st2)
       else (.ok (), st2)) := by
  have hstage1 : topics.mapM (fetchLatestVersion net) =
      .ok (topics.map (fun s => match net.latestVersion s with
        | HttpOutcome.ok v => some (v, s)
        | _ => none)) := by
    apply mapM_ok_of_forall
    intro s hs
    cases hls : net.latestVersion s with
    | ok v => simp [fetchLatestVersion, suppressAxiosError, hls]
    | errResponse c => simp [fetchLatestVersion, suppressAxiosError, hls]
    | errNoResponse => exact absurd hls (hgood s hs)
  have hstage2 : (topics.filterMap (fun s => match net.latestVersion s with
      | HttpOutcome.ok v => some (v, s)
      | _ => none)).mapM (fetchSchema net) =
      .ok ((topics.filterMap (fun s => match net.latestVersion s with
        | HttpOutcome.ok v => some (v, s)
        | _ => none)).map (fun p => (⟨p.1, rsp p.2, p.2⟩ : FetchedSchema))) := by
    apply mapM_ok_of_forall
    intro p hp
    obtain ⟨s, hs, hFs⟩ := List.mem_filterMap.mp hp
    cases hls : net.latestVersion s with
    | ok v =>
      rw [hls] at hFs
      obtain rfl : (v, s) = p := by simpa using hFs
      simp [fetchSchema, handleAxiosError, hfetch s hs v hls]
    | errResponse c =>
      rw [hls] at hFs
      simp at hFs
    | errNoResponse =>
      rw [hls] at hFs
      simp at hFs
  unfold fetchSchemas fetchTopics
  rw [hsel]
  simp only [hstage1, List.filterMap_map, Function.id_comp, hstage2]

/-- C6 amended: during initialize, every subject whose latest-version
lookup answers with an HTTP error response — any status, 404 or
otherwise — is silently skipped and contributes nothing to the
indices; every subject whose lookup and schema fetch succeed is
registered and initialize succeeds overall; a latest-version transport
failure carrying no HTTP response aborts initialization. -/
theorem fetchSchemas_suppresses_latest_errors {σ : Type} (cfg : SRConfig)
    (net : RegistryNet) (parse : String → Option σ) (st : SRState σ)
    (topics : List String) (ver : String → Nat) (rsp : String → SchemaResponse)
    (ty : String → σ)
    (hsel : cfg.selectedTopics = some topics)
    (hall : cfg.fetchAllVersions = false)
    (hnodup : topics.Nodup)
    (hca : ∀ s ∈ topics,
      (net.latestVersion s = .ok (ver s) ∧ net.schemaAt s (ver s) = .ok (rsp s) ∧
        parse (rsp s).schema = some (ty s)) ∨
      (∃ c, net.latestVersion s = .errResponse c)) :
    (fetchSchemas cfg net parse st).1 = .ok () ∧
    (∀ s ∈ topics, (∃ c, net.latestVersion s = .errResponse c) →
      (fetchSchemas cfg net parse st).2.schemas s = st.schemas s ∧
      (fetchSchemas cfg net parse st).2.schemaIds s = st.schemaIds s ∧
      (fetchSchemas cfg net parse st).2.schemaMeta s = st.schemaMeta s) ∧
    (∀ s ∈ topics, net.latestVersion s = .ok (ver s) →
      (fetchSchemas cfg net parse st).2.schemas s = some (ty s) ∧
      (fetchSchemas cfg net parse st).2.schemaIds s = some (rsp s).id ∧
      (fetchSchemas cfg net parse st).2.schemaMeta s = some (rsp s)) ∧
    (∀ net' : RegistryNet, (∃ s ∈ topics, net'.latestVersion s = .errNoResponse) →
      (fetchSchemas cfg net' parse st).1 = .error ()) := by
  have hgood : ∀ s ∈ topics, net.latestVersion s ≠ .errNoResponse := by
    intro s hs hbad
    rcases hca s hs with ⟨h1, _, _⟩ | ⟨c, h1⟩ <;> rw [h1] at hbad <;> cases hbad
  have hfetch : ∀ s ∈ topics, ∀ v, net.latestVersion s = .ok v →
      net.schemaAt s v = .ok (rsp s) := by
    intro s hs v hv
    rcases hca s hs with ⟨h1, h2, _⟩ | ⟨c, h1⟩
    · rw [h1] at hv
      obtain rfl : ver s = v := by simpa using hv
      exact h2
    · rw [h1] at hv
      cases hv
  have heq := fetchSchemas_eq_afterLatest cfg net parse st topics rsp hsel hgood hfetch
  rw [hall] at heq
  simp only [if_false, Bool.false_eq_true] at heq
  rw [heq]
  have hpair : ((topics.filterMap (fun s => match net.latestVersion s with
      | HttpOutcome.ok v => some (v, s)
      | _ => none)).map (fun p => (⟨p.1, rsp p.2, p.2⟩ : FetchedSchema))).Pairwise
      (fun a b => a.schemaTopicRaw ≠ b.schemaTopicRaw) := by
    rw [List.map_filterMap]
    apply pairwise_ne_filterMap (fun it : FetchedSchema => it.schemaTopicRaw)
    · intro s y hy
      cases hls : net.latestVersion s with
      | ok v =>
        rw [hls] at hy
        obtain rfl : (⟨v, rsp s, s⟩ : FetchedSchema) = y := by simpa using hy
        rfl
      | errResponse c =>
        rw [hls] at hy
        simp at hy
      | errNoResponse =>
        rw [hls] at hy
        simp at hy
    · exact hnodup
  refine ⟨rfl, ?_, ?_, ?_⟩
  · intro s hs ⟨c, hc⟩
    refine foldl_registerLatest_frame parse _ _ s ?_
    · intro it hit
      obtain ⟨p, hp, rfl⟩ := List.mem_map.mp hit
      obtain ⟨s', hs', hFs'⟩ := List.mem_filterMap.mp hp
      cases hls : net.latestVersion s' with
      | ok v =>
        rw [hls] at hFs'
        obtain rfl : (v, s') = p := by simpa using hFs'
        intro hcontra
        simp only at hcontra
        subst hcontra
        rw [hls] at hc
        cases hc
      | errResponse c' =>
        rw [hls] at hFs'
        simp at hFs'
      | errNoResponse =>
        rw [hls] at hFs'
        simp at hFs'
  · intro s hs hok
    have hmem : (⟨ver s, rsp s, s⟩ : FetchedSchema) ∈
        (topics.filterMap (fun s => match net.latestVersion s with
          | HttpOutcome.ok v => some (v, s)
          | _ => none)).map (fun p => (⟨p.1, rsp p.2, p.2⟩ : FetchedSchema)) := by
      apply List.mem_map.mpr
      refine ⟨(ver s, s), ?_, rfl⟩
      apply List.mem_filterMap.mpr
      exact ⟨s, hs, by rw [hok]⟩
    have hty : parse (rsp s).schema = some (ty s) := by
      rcases hca s hs with ⟨_, _, h3⟩ | ⟨c, h1⟩
      · exact h3
      · rw [h1] at hok
        cases hok
    exact foldl_registerLatest_set parse _ _ ⟨ver s, rsp s, s⟩ (ty s) hmem hpair hty
  · intro net' ⟨s, hs, herr⟩
    unfold fetchSchemas fetchTopics
    rw [hsel]
    have hm : topics.mapM (fetchLatestVersion net') = .error () := by
      apply mapM_error_of_mem _ _ s hs
      simp [fetchLatestVersion, suppressAxiosError, herr]
    simp only [hm]

/-- C5 amended: a refresh that fails in the all-versions stage still
leaves behind the registrations its latest-version stage performed —
the shared dictionaries are mutated in place, entry by entry, with no
rollback and no atomic swap — so each refreshed subject holds its new
value while everything else keeps its old one; the failure surfaces
only as the rejected refresh promise, which no lookup caller consumes. -/
theorem fetchSchemas_failedRefresh_partialUpdate {σ : Type} (cfg : SRConfig)
    (net : RegistryNet) (parse : String → Option σ) (st : SRState σ)
    (topics : List String) (ver : String → Nat) (rsp : String → SchemaResponse)
    (ty : String → σ)
    (hsel : cfg.selectedTopics = some topics)
    (hall : cfg.fetchAllVersions = true)
    (hnodup : topics.Nodup)
    (hca : ∀ s ∈ topics, net.latestVersion s = .ok (ver s) ∧
      net.schemaAt s (ver s) = .ok (rsp s) ∧ parse (rsp s).schema = some (ty s))
    (hfail : ∃ s ∈ topics, net.versions s = .errNoResponse) :
    (fetchSchemas cfg net parse st).1 = .error () ∧
    (∀ s ∈ topics,
      (fetchSchemas cfg net parse st).2.schemas s = some (ty s) ∧
      (fetchSchemas cfg net parse st).2.schemaIds s = some (rsp s).id ∧
      (fetchSchemas cfg net parse st).2.schemaMeta s = some (rsp s)) ∧
    (∀ s, s ∉ topics →
      (fetchSchemas cfg net parse st).2.schemas s = st.schemas s) := by
  have hgood : ∀ s ∈ topics, net.latestVersion s ≠ .errNoResponse := by
    intro s hs hbad
    rw [(hca s hs).1] at hbad
    cases hbad
  have hfetch : ∀ s ∈ topics, ∀ v, net.latestVersion s = .ok v →
      net.schemaAt s v = .ok (rsp s) := by
    intro s hs v hv
    obtain ⟨h1, h2, _⟩ := hca s hs
    rw [h1] at hv
    obtain rfl : ver s = v := by simpa using hv
    exact h2
  have heq := fetchSchemas_eq_afterLatest cfg net parse st topics rsp hsel hgood hfetch
  rw [hall] at heq
  obtain ⟨s₀, hs₀, herr₀⟩ := hfail
  have hvm : topics.mapM (fetchAllSchemaVersions net) = .error () := by
    apply mapM_error_of_mem _ _ s₀ hs₀
    simp [fetchAllSchemaVersions, suppressAxiosError, herr₀]
  rw [hvm] at heq
  simp only [if_true] at heq
  rw [heq]
  have hpair : ((topics.filterMap (fun s => match net.latestVersion s with
      | HttpOutcome.ok v => some (v, s)
      | _ => none)).map (fun p => (⟨p.1, rsp p.2, p.2⟩ : FetchedSchema))).Pairwise
      (fun a b => a.schemaTopicRaw ≠ b.schemaTopicRaw) := by
    rw [List.map_filterMap]
    apply pairwise_ne_filterMap (fun it : FetchedSchema => it.schemaTopicRaw)
    · intro s y hy
      cases hls : net.latestVersion s with
      | ok v =>
        rw [hls] at hy
        obtain rfl : (⟨v, rsp s, s⟩ : FetchedSchema) = y := by simpa using hy
        rfl
      | errResponse c =>
        rw [hls] at hy
        simp at hy
      | errNoResponse =>
        rw [hls] at hy
        simp at hy
    · exact hnodup
  refine ⟨rfl, ?_, ?_⟩
  · intro s hs
    have hmem : (⟨ver s, rsp s, s⟩ : FetchedSchema) ∈
        (topics.filterMap (fun s => match net.latestVersion s with
          | HttpOutcome.ok v => some (v, s)
          | _ => none)).map (fun p => (⟨p.1, rsp p.2, p.2⟩ : FetchedSchema)) := by
      apply List.mem_map.mpr
      refine ⟨(ver s, s), ?_, rfl⟩
      apply List.mem_filterMap.mpr
      exact ⟨s, hs, by rw [(hca s hs).1]⟩
    exact foldl_registerLatest_set parse _ _ ⟨ver s, rsp s, s⟩ (ty s) hmem hpair
      (hca s hs).2.2
  · intro s hsn
    refine (foldl_registerLatest_frame parse _ _ s ?_).1
    intro it hit
    obtain ⟨p, hp, rfl⟩ := List.mem_map.mp hit
    obtain ⟨s', hs', hFs'⟩ := List.mem_filterMap.mp hp
    cases hls : net.latestVersion s' with
    | ok v =>
      rw [hls] at hFs'
      obtain rfl : (v, s') = p := by simpa using hFs'
      intro hcontra
      simp only at hcontra
      subst hcontra
      exact hsn hs'
    | errResponse c' =>
      rw [hls] at hFs'
      simp at hFs'
    | errNoResponse =>
      rw [hls] at hFs'
      simp at hFs'

/-- C6 counterexample: a latest-version lookup answering HTTP 500 — a
transport failure that is not a missing-version response — is
suppressed rather than fatal: initialization succeeds and merely skips
that subject. -/
theorem initialize_suppresses_500 :
    net6.latestVersion "b-value" = .errResponse 500 ∧
    (fetchSchemas cfg6 net6 parse6 sr0).1 = .ok () ∧
    (fetchSchemas cfg6 net6 parse6 sr0).2.schemas "a-value" = some 0 ∧
    (fetchSchemas cfg6 net6 parse6 sr0).2.schemas "b-value" = none :=
  ⟨rfl, rfl, rfl, rfl⟩

/-- C6 witness. -/
theorem fetchSchemas_suppresses_latest_errors_witness :
    (fetchSchemas cfg6 net6 parse6 sr0).1 = .ok () ∧
    (fetchSchemas cfg6 net6 parse6 sr0).2.schemas "b-value" = none ∧
    (fetchSchemas cfg6 net6 parse6 sr0).2.schemas "a-value" = some 0 := by
  have h := fetchSchemas_suppresses_latest_errors cfg6 net6 parse6 sr0
    ["a-value", "b-value"] (fun _ => 1) (fun _ => ⟨"a-value", 1, 10, "schemaA"⟩)
    (fun _ => 0) rfl rfl (by decide) ?hca
  case hca =>
    intro s hs
    rcases List.mem_cons.mp hs with rfl | hs'
    · exact Or.inl ⟨rfl, rfl, rfl⟩
    · obtain rfl : s = "b-value" := by simpa using hs'
      exact Or.inr ⟨500, rfl⟩
  refine ⟨h.1, ?_, (h.2.2.1 "a-value" (by simp) rfl).1⟩
  have h2 := (h.2.1 "b-value" (by simp) ⟨500, rfl⟩).1
  rw [h2]
  rfl

/-- C5 counterexample: a refresh that fails (network failure while
fetching a historical version) has already overwritten the previously
published `schemaTypeById` entry for id 7 in place — the failure does
not leave the catalog state as it was before the refresh. -/
theorem refresh_failure_mutates_catalog :
    (fetchSchemas cfg5 net5 parse5 sr5).1 = .error () ∧
    sr5.schemaTypeById 7 = some 0 ∧
    (fetchSchemas cfg5 net5 parse5 sr5).2.schemaTypeById 7 = some 1 ∧
    (fetchSchemas cfg5 net5 parse5 sr5).2.schemaTypeById 7 ≠
      sr5.schemaTypeById 7 := by
  have h2 : sr5.schemaTypeById 7 = some 0 := rfl
  have h3 : (fetchSchemas cfg5 net5 parse5 sr5).2.schemaTypeById 7 = some 1 := rfl
  refine ⟨rfl, h2, h3, ?_⟩
  rw [h2, h3]
  decide

/-- C5 witness. -/
theorem fetchSchemas_failedRefresh_partialUpdate_witness :
    (fetchSchemas cfg5 net5b parse5 sr5).1 = .error () ∧
    (fetchSchemas cfg5 net5b parse5 sr5).2.schemas "a-value" = some 1 ∧
    (fetchSchemas cfg5 net5b parse5 sr5).2.schemas "other" = sr5.schemas "other" := by
  have h := fetchSchemas_failedRefresh_partialUpdate cfg5 net5b parse5 sr5
    ["a-value"] (fun _ => 2) (fun _ => ⟨"a-value", 2, 7, "s2"⟩) (fun _ => 1)
    rfl rfl (by decide) ?hca ?hfail
  case hca =>
    intro s hs
    obtain rfl : s = "a-value" := by simpa using hs
    exact ⟨rfl, rfl, rfl⟩
  case hfail => exact ⟨"a-value", by simp, rfl⟩
  exact ⟨h.1, (h.2.1 "a-value" (by simp)).1, h.2.2 "other" (by decide)⟩

end KafkaAvro
